import Mathlib

/-!
Verification development for the Spellbound Party turn pipeline.

The server-side turn pipeline lives in
`src/pages/api/games/[gameId]/turns/stream.ts` (tag extraction, CDATA
stripping, turn-payload parsing, request parsing, the turn orchestrator),
`src/lib/gameStore.ts` (`appendTurnToGame`) and `src/lib/requestStore.ts`
(the response-collection poll loop).  We embed those functions shallowly:
buffers are `List Char`, JavaScript regular-expression searches are modelled
by explicit leftmost-occurrence scans, the orchestrator is a pure function
from the narration chunk sequence and the adapter outcomes to the emitted
event list and the persisted state, and the indefinite poll loop is modelled
with explicit fuel.

Conventions for the regex models: a JavaScript regex of the shape
`<lit A*? B>` (lazy any-char runs between literals) matches leftmost-first,
so its first match is determined by the first occurrence of the leading
literal followed by the first occurrence of each subsequent literal after
it; the comments on each definition record the corresponding source lines.
`randomUUID()` is modelled by an injected injective id supply, `Date.now()`
by an explicit clock parameter.
-/

deriving instance DecidableEq for Except

set_option maxRecDepth 100000

namespace Spellbound

/-- Buffers and strings of the TypeScript source are modelled as `List Char`. -/
abbrev Str := List Char

/-- `String.prototype.toLowerCase` (ASCII; the pipeline only folds tag names). -/
def toLowerL (s : Str) : Str := s.map Char.toLower

/-- The whitespace class of JavaScript `\s` / `String.prototype.trim`,
restricted to its ASCII members (the pipeline never meets the Unicode ones). -/
def isJsWs (c : Char) : Bool :=
  c == ' ' || c == '\t' || c == '\n' || c == '\r' || c == Char.ofNat 11 || c == Char.ofNat 12

/-- `String.prototype.trim`. -/
def jsTrim (s : Str) : Str :=
  ((s.dropWhile isJsWs).reverse.dropWhile isJsWs).reverse

/-- `String.prototype.indexOf(pat)`: index of the leftmost occurrence of
`pat` as a contiguous sublist, `none` when there is no occurrence. -/
def findSub : Str → Str → Option Nat
  | [], pat => if pat <+: ([] : Str) then some 0 else none
  | a :: l, pat =>
    if pat <+: (a :: l) then some 0
    else (findSub l pat).map (· + 1)

/-- `String.prototype.indexOf(pat, i)`: leftmost occurrence at index ≥ `i`. -/
def findFrom (l pat : Str) (i : Nat) : Option Nat :=
  (findSub (l.drop i) pat).map (· + i)

/-- `String.prototype.slice(a, b)` for `a ≤ b` (the only way the source uses it). -/
def sliceL (l : Str) (a b : Nat) : Str := (l.drop a).take (b - a)

theorem findSub_bound {l pat : Str} {i : Nat} (h : findSub l pat = some i) :
    i + pat.length ≤ l.length := by
  induction l generalizing i with
  | nil =>
    simp only [findSub] at h
    split at h
    · rename_i hp
      have : pat = [] := List.prefix_nil.mp hp
      cases h
      simp [this]
    · cases h
  | cons a l ih =>
    simp only [findSub] at h
    split at h
    · rename_i hp
      cases h
      simpa using hp.length_le
    · rcases Option.map_eq_some'.mp h with ⟨j, hj, rfl⟩
      have := ih hj
      simp only [List.length_cons]
      omega

theorem prefix_append_left {p l t : Str} (hlen : p.length ≤ l.length)
    (h : p <+: l ++ t) : p <+: l := by
  induction l generalizing p with
  | nil =>
    have : p = [] := List.length_eq_zero.mp (Nat.le_antisymm (by simpa using hlen) (Nat.zero_le _))
    simp [this]
  | cons a l ih =>
    cases p with
    | nil => exact ⟨a :: l, rfl⟩
    | cons b p =>
      rw [List.cons_append] at h
      rcases (List.cons_prefix_cons).mp h with ⟨rfl, hp⟩
      have := ih (by simpa using hlen) hp
      exact (List.cons_prefix_cons).mpr ⟨rfl, this⟩

theorem findSub_nil_pat (t : Str) : findSub t [] = some 0 := by
  cases t <;> simp [findSub]

theorem findSub_append {l pat t : Str} {i : Nat} (h : findSub l pat = some i) :
    findSub (l ++ t) pat = some i := by
  induction l generalizing i with
  | nil =>
    simp only [findSub] at h
    split at h
    · rename_i hp
      have : pat = [] := List.prefix_nil.mp hp
      cases h
      simpa [this] using findSub_nil_pat t
    · cases h
  | cons a l ih =>
    by_cases hp : pat <+: (a :: l)
    · simp only [findSub, if_pos hp] at h
      cases h
      have hp2 : pat <+: a :: (l ++ t) := by
        have := hp.trans (⟨t, rfl⟩ : (a :: l) <+: (a :: l) ++ t)
        simpa using this
      simp only [List.cons_append, findSub, List.append_eq, if_pos hp2]
    · simp only [findSub, if_neg hp] at h
      rcases Option.map_eq_some'.mp h with ⟨j, hj, rfl⟩
      have hlen : pat.length ≤ l.length := by
        have := findSub_bound hj; omega
      have hnp : ¬ pat <+: a :: (l ++ t) := by
        intro hcon
        refine hp (prefix_append_left (l := a :: l) (t := t) ?_ ?_)
        · simp only [List.length_cons]; omega
        · simpa using hcon
      simp only [List.cons_append, findSub, List.append_eq, if_neg hnp, ih hj,
        Option.map_some']

theorem findFrom_bound {l pat : Str} {i j : Nat} (hpat : pat ≠ [])
    (h : findFrom l pat i = some j) : i ≤ j ∧ j + pat.length ≤ l.length := by
  rcases Option.map_eq_some'.mp h with ⟨k, hk, rfl⟩
  have hb := findSub_bound hk
  rw [List.length_drop] at hb
  have hil : i ≤ l.length := by
    by_contra hgt
    push_neg at hgt
    have hdrop : l.drop i = [] := List.drop_eq_nil_of_le (Nat.le_of_lt hgt)
    rw [hdrop] at hk
    simp only [findSub] at hk
    split at hk
    · rename_i hp
      exact hpat (List.prefix_nil.mp hp)
    · cases hk
  constructor
  · omega
  · omega

theorem findFrom_append {l pat t : Str} {i j : Nat} (hi : i ≤ l.length)
    (h : findFrom l pat i = some j) : findFrom (l ++ t) pat i = some j := by
  rcases Option.map_eq_some'.mp h with ⟨k, hk, rfl⟩
  unfold findFrom
  rw [List.drop_append_of_le_length hi, findSub_append hk]
  rfl

theorem sliceL_append {l t : Str} {a b : Nat} (ha : a ≤ l.length) (hb : b ≤ l.length) :
    sliceL (l ++ t) a b = sliceL l a b := by
  unfold sliceL
  rw [List.drop_append_of_le_length ha,
      List.take_append_of_le_length (by rw [List.length_drop]; omega)]

/-! ## Incremental tag extractor (stream.ts lines 37–58) -/

/-- Result of `getTagSegment` (spec: **TagSegment**). -/
structure TagSegment where
  content : Str
  closed : Bool
deriving DecidableEq

/-- `getTagSegment(source, tag)` from stream.ts lines 37–58: case-insensitive
search for the first occurrence of `<tag`, then the first `>` at or after it
(`source.indexOf(">", open)`), then the first `</tag>` after that `>`.
`closed = false` with the rest of the buffer when the closing marker has not
streamed in yet. -/
def getTagSegment (source : Str) (tag : Str) : Option TagSegment :=
  let lower := toLowerL source
  match findSub lower ('<' :: toLowerL tag) with
  | none => none
  | some openIdx =>
    match findFrom source ['>'] openIdx with
    | none => none
    | some openEnd =>
      match findFrom lower ('<' :: '/' :: (toLowerL tag ++ ['>'])) (openEnd + 1) with
      | none => some ⟨source.drop (openEnd + 1), false⟩
      | some closeIdx => some ⟨sliceL source (openEnd + 1) closeIdx, true⟩

/-! ## CDATA stripping (stream.ts lines 34 and 60) -/

def cdataOpen : Str := "<![CDATA[".data

def cdataClose : Str := "]]>".data

/-- One global-replace pass of `/<!\[CDATA\[([\s\S]*?)\]\]>/g` (stream.ts
line 60): repeatedly take the leftmost `<![CDATA[`, the first `]]>` after its
9-character opener, keep the text between, and continue scanning after the
match.  When the leftmost opener has no closer after it, no later opener can
have one either, so replacement stops.  The fuel argument only bounds the
recursion; each step consumes at least one character, so `s.length` fuel is
always enough (`stripCdataGo_fuel`). -/
def stripCdataGo : Nat → Str → Str
  | 0, s => s
  | fuel + 1, s =>
    match findSub s cdataOpen with
    | none => s
    | some p =>
      match findFrom s cdataClose (p + 9) with
      | none => s
      | some q => s.take p ++ sliceL s (p + 9) q ++ stripCdataGo fuel (s.drop (q + 3))

/-- `stripCdata` from stream.ts line 60. -/
def stripCdata (s : Str) : Str := stripCdataGo s.length s

/-- The line-terminator class that JavaScript `.` does not match. -/
def isJsLineTerm (c : Char) : Bool :=
  c == '\n' || c == '\r' || c == Char.ofNat 0x2028 || c == Char.ofNat 0x2029

/-- One global-replace pass of `/<!\[CDATA\[(.*?)\]\]>/g` (stream.ts line 34,
inside `parseTag`).  Unlike `stripCdata`, the lazy group uses `.`, so a
wrapper whose content contains a line terminator does not match; the scan
then advances past that opener (the engine moves forward one position at a
time, and only opener positions can start a match). -/
def stripCdataDotGo : Nat → Str → Str
  | 0, s => s
  | fuel + 1, s =>
    match findSub s cdataOpen with
    | none => s
    | some p =>
      match findFrom s cdataClose (p + 9) with
      | none => s
      | some q =>
        if (sliceL s (p + 9) q).all (fun c => ! isJsLineTerm c) then
          s.take p ++ sliceL s (p + 9) q ++ stripCdataDotGo fuel (s.drop (q + 3))
        else
          s.take (p + 1) ++ stripCdataDotGo fuel (s.drop (p + 1))

def stripCdataDot (s : Str) : Str := stripCdataDotGo s.length s

/-! ## Turn payload parser (stream.ts lines 28–35 and 160–177) -/

/-- `parseTag(source, tag)` from stream.ts lines 28–35: the first match of
`/<tag[^>]*>([\s\S]*?)<\/tag>/i` (leftmost `<tag`, then the first `>` after
the tag name — the greedy `[^>]*` cannot skip a `>` — then the first
`</tag>` after it; if any later opener had a full match, the first opener
would too, so the first opener decides), then the dot-variant CDATA strip
and `trim()`. -/
def parseTag (source : Str) (tag : Str) : Option Str :=
  let lower := toLowerL source
  match findSub lower ('<' :: toLowerL tag) with
  | none => none
  | some p =>
    match findFrom source ['>'] (p + 1 + tag.length) with
    | none => none
    | some g =>
      match findFrom lower ('<' :: '/' :: (toLowerL tag ++ ['>'])) (g + 1) with
      | none => none
      | some q => some (jsTrim (stripCdataDot (sliceL source (g + 1) q)))

/-- The first match of `/<turn[\s\S]*?>[\s\S]*?<\/turn>/i` (stream.ts line
161), as the matched substring `turnMatch[0]`: leftmost `<turn`, first `>`
at index ≥ open + 5, first `</turn>` after that. -/
def turnBlock (raw : Str) : Option Str :=
  let lower := toLowerL raw
  match findSub lower "<turn".data with
  | none => none
  | some p =>
    match findFrom raw ['>'] (p + 5) with
    | none => none
    | some g =>
      match findFrom lower "</turn>".data (g + 1) with
      | none => none
      | some q => some (sliceL raw p (q + 7))

/-- Spec: **ParsedTurn** (the `TurnPayload` type of stream.ts lines 23–26). -/
structure TurnPayload where
  continuation : Str
  imagePrompt : Option Str
deriving DecidableEq

/-- `parseTurnPayload(raw)` from stream.ts lines 160–177.  A thrown `Error`
is modelled as `Except.error` carrying the message.  An empty continuation
is falsy in `if (!continuation)`, so it throws like a missing one; an
image prompt that trims to the empty string becomes `undefined` via
`imagePrompt?.trim() || undefined`. -/
def parseTurnPayload (raw : Str) : Except Str TurnPayload :=
  match turnBlock raw with
  | none => .error "Model response did not include a <turn> block".data
  | some block =>
    match parseTag block "continuation".data with
    | none => .error "Missing <continuation> content".data
    | some c =>
      if c = [] then .error "Missing <continuation> content".data
      else
        let ip : Option Str :=
          match parseTag block "image_prompt".data with
          | none => none
          | some s => if jsTrim s = [] then none else some (jsTrim s)
        .ok ⟨jsTrim c, ip⟩

/-! ## Domain types (types/game.ts) -/

/-- `Player` from types/game.ts. -/
structure Player where
  id : Str
  name : Str
  joinedAt : Nat
  avatar : Option Str
deriving DecidableEq

/-- The `Request` union from types/game.ts: sum over the four variants
`multiple_choice`, `free_text`, `yes_no`, `dice_roll`.  The three targeted
variants carry their single-element `targetPlayers` tuple as one id. -/
inductive Request where
  | multipleChoice (id : Str) (question : Str) (choices : List Str)
  | freeText (id : Str) (question : Str) (target : Str)
  | yesNo (id : Str) (question : Str) (target : Str)
  | diceRoll (id : Str) (question : Str) (diceCount : Nat) (target : Str)
deriving DecidableEq

/-- The `id` field shared by all `Request` variants. -/
def Request.rid : Request → Str
  | .multipleChoice i _ _ => i
  | .freeText i _ _ => i
  | .yesNo i _ _ => i
  | .diceRoll i _ _ _ => i

/-- `RequestResponse` from types/game.ts. -/
structure RequestResponse where
  playerId : Str
  response : Option Str
  timestamp : Nat
deriving DecidableEq

/-! ## Request parsing (stream.ts lines 62–158) -/

/-- `mapPlayerReference(reference, players)` from stream.ts lines 66–74:
`/^player(\d+)$/i` anchored on the whole reference, `parseInt` of the digit
group, reference `playerK` resolving to `players[K-1].id`, `undefined` when
the index is out of bounds. -/
def mapPlayerReference (reference : Str) (players : List Player) : Option Str :=
  let low := toLowerL reference
  if low.take 6 = "player".data ∧ low.drop 6 ≠ [] ∧ (low.drop 6).all Char.isDigit then
    let n := (low.drop 6).foldl (fun acc c => acc * 10 + (c.toNat - 48)) 0
    if n = 0 then none
    else
      match players.get? (n - 1) with
      | none => none
      | some pl => some pl.id
  else none

/-- Quote characters of the attribute-value classes `["']` / `[^"']`. -/
def isQuote (c : Char) : Bool := c == '"' || c == Char.ofNat 39

/-- First match of `/pat["']([^"']+)["']/i` inside an attribute string (the
`type=` and `target_player=` lookups of stream.ts lines 93–94): leftmost
case-insensitive occurrence of the literal `pat` followed by a quote; the
group is the maximal nonempty run of non-quote characters up to the next
quote character.  When the run would be empty, or no quote follows, the scan
advances past this occurrence (there is no match starting at it). -/
def scanAttr : Nat → Str → Str → Option Str
  | 0, _, _ => none
  | fuel + 1, pat, s =>
    match findSub (toLowerL s) pat with
    | none => none
    | some p =>
      match s.drop (p + pat.length) with
      | [] => none
      | c :: rest =>
        if isQuote c then
          match rest.findIdx? isQuote with
          | none => none
          | some j =>
            if j = 0 then scanAttr fuel pat (s.drop (p + 1))
            else some (rest.take j)
        else scanAttr fuel pat (s.drop (p + 1))

/-- First match of `/<question>([\s\S]*?)<\/question>/i` (stream.ts line 102). -/
def questionOf (content : Str) : Option Str :=
  let lower := toLowerL content
  match findSub lower "<question>".data with
  | none => none
  | some p =>
    match findFrom lower "</question>".data (p + 10) with
    | none => none
    | some q => some (sliceL content (p + 10) q)

/-- All matches of `/<choice>([\s\S]*?)<\/choice>/gi` (stream.ts line 111),
in order, as the raw group contents. -/
def scanChoices : Nat → Str → List Str
  | 0, _ => []
  | fuel + 1, s =>
    let lower := toLowerL s
    match findSub lower "<choice>".data with
    | none => []
    | some p =>
      match findFrom lower "</choice>".data (p + 8) with
      | none => []
      | some q => sliceL s (p + 8) q :: scanChoices fuel (s.drop (q + 9))

/-- The first index ≥ `i` holding a non-whitespace character (`s.length`
when there is none): the end of the run matched by a greedy `\s+`. -/
def firstNonWs (s : Str) (i : Nat) : Nat :=
  match (s.drop i).findIdx? (fun c => ! isJsWs c) with
  | none => s.length
  | some j => i + j

/-- All matches of `/<request\s+([^>]*)>([\s\S]*?)<\/request>/gi` (stream.ts
line 84) as (attributes, content) pairs: leftmost `<request` followed by at
least one whitespace character; the attribute group runs from the end of the
whitespace run to the first `>`; the content group runs to the first
`</request>` after it; scanning continues after each match, and a position
where the whitespace fails is skipped one character at a time. -/
def scanRequests : Nat → Str → List (Str × Str)
  | 0, _ => []
  | fuel + 1, s =>
    let lower := toLowerL s
    match findSub lower "<request".data with
    | none => []
    | some p =>
      match (s.drop (p + 8)).head? with
      | none => []
      | some c =>
        if isJsWs c then
          match findFrom s ['>'] (p + 9) with
          | none => []
          | some g =>
            match findFrom lower "</request>".data (g + 1) with
            | none => []
            | some q =>
              (sliceL s (firstNonWs s (p + 8)) g, sliceL s (g + 1) q)
                :: scanRequests fuel (s.drop (q + 10))
        else scanRequests fuel (s.drop (p + 1))

/-- The body of the `for (const requestMatch of requestMatches)` loop of
stream.ts lines 88–155 for a single `<request ...>...</request>` element:
`none` when the element is silently dropped (missing or unknown type,
missing question, a multiple-choice with no nonempty choice, or a targeted
request whose player reference does not resolve). -/
def processRequestElement (players : List Player) (rid : Str) (attrs content : Str) :
    Option Request :=
  match scanAttr (attrs.length + 1) "type=".data attrs with
  | none => none
  | some tyRaw =>
    let ty := toLowerL tyRaw
    let targetRef := scanAttr (attrs.length + 1) "target_player=".data attrs
    match questionOf content with
    | none => none
    | some qRaw =>
      let question := jsTrim (stripCdata qRaw)
      if ty = "multiple_choice".data then
        let choices := (scanChoices (content.length + 1) content).filterMap
          (fun c => if jsTrim (stripCdata c) = [] then none else some (jsTrim (stripCdata c)))
        if choices = [] then none
        else some (.multipleChoice rid question choices)
      else if ty = "free_text".data then
        match targetRef with
        | none => none
        | some ref =>
          match mapPlayerReference ref players with
          | none => none
          | some pid => if pid = [] then none else some (.freeText rid question pid)
      else if ty = "yes_no".data then
        match targetRef with
        | none => none
        | some ref =>
          match mapPlayerReference ref players with
          | none => none
          | some pid => if pid = [] then none else some (.yesNo rid question pid)
      else none

/-- The first match of `/<requests[\s\S]*?>([\s\S]*?)<\/requests>/i`
(stream.ts line 80), as the inner group. -/
def requestsBlock (raw : Str) : Option Str :=
  let lower := toLowerL raw
  match findSub lower "<requests".data with
  | none => none
  | some p =>
    match findFrom raw ['>'] (p + 9) with
    | none => none
    | some g =>
      match findFrom lower "</requests>".data (g + 1) with
      | none => none
      | some q => some (sliceL raw (g + 1) q)

/-- `parseRequests(raw, players)` from stream.ts lines 79–158.  `randomUUID`
is modelled by the injected supply `uuid`, applied to the element's position
in the `<requests>` block; only distinctness of the ids matters. -/
def parseRequests (uuid : Nat → Str) (raw : Str) (players : List Player) : List Request :=
  match requestsBlock raw with
  | none => []
  | some content =>
    ((scanRequests (content.length + 1) content).enum).filterMap
      (fun pr => processRequestElement players (uuid pr.1) pr.2.1 pr.2.2)

/-! ## Game store (gameStore.ts lines 99–119, types/game.ts) -/

/-- `GameTurn` from types/game.ts (spec: **GameTurn**).  The optional
`requests`/`responses` fields are `none` when absent; `responses` is the
`Record<string, RequestResponse[]>` map as an association list. -/
structure GameTurn where
  id : Str
  createdAt : Nat
  continuation : Str
  imagePrompt : Option Str
  image : Option Str
  requests : Option (List Request)
  responses : Option (List (Str × List RequestResponse))
deriving DecidableEq

/-- `GameState` from types/game.ts. -/
structure GameState where
  id : Str
  createdAt : Nat
  status : Str
  players : List Player
  turns : List GameTurn
deriving DecidableEq

/-- The runtime payload object the stream handler passes to
`appendTurnToGame` (stream.ts lines 449–455): it carries `requests` and
`responses` even though the declared parameter type of `appendTurnToGame`
(gameStore.ts line 101) only picks `continuation`, `imagePrompt` and
`image`. -/
structure AppendTurnPayload where
  continuation : Str
  imagePrompt : Option Str
  image : Option Str
  requests : Option (List Request)
  responses : Option (List (Str × List RequestResponse))
deriving DecidableEq

/-- `appendTurnToGame(gameId, payload)` from gameStore.ts lines 99–119,
with `randomUUID()` and `Date.now()` injected as `newId` and `now`.  The
constructed turn (source lines 108–114) copies only `continuation`,
`imagePrompt` and `image` from the payload: the `requests` and `responses`
properties of the passed object are not copied, so the persisted turn has
them absent. -/
def appendTurnToGame (newId : Str) (now : Nat) (game : GameState)
    (payload : AppendTurnPayload) : GameState × GameTurn :=
  let turn : GameTurn :=
    { id := newId
      createdAt := now
      continuation := payload.continuation
      imagePrompt := payload.imagePrompt
      image := payload.image
      requests := none
      responses := none }
  ({ game with turns := game.turns ++ [turn] }, turn)

/-! ## Response collection (requestStore.ts lines 95–187) -/

/-- One pass of the `for (const [playerId, value] of Object.entries(hash))`
loop of requestStore.ts lines 111–119: skip the `__meta__` entry, add every
hash entry whose player id has not been seen, preserving first-seen order
(the insertion order of the `Map`). -/
def pollMerge (acc : List (Str × RequestResponse)) (hash : List (Str × RequestResponse)) :
    List (Str × RequestResponse) :=
  hash.foldl
    (fun a kv =>
      if kv.1 = "__meta__".data then a
      else if a.any (fun e => e.1 == kv.1) then a
      else a ++ [kv])
    acc

/-- `expectedPlayerIds.every((id) => responses.has(id))` (requestStore.ts
line 122). -/
def allResponded (expected : List Str) (acc : List (Str × RequestResponse)) : Bool :=
  expected.all (fun pid => acc.any (fun e => e.1 == pid))

/-- The `while (true)` poll loop of `waitForRequestResponse`
(requestStore.ts lines 95–133).  The loop has no timeout (its own doc
comment: "no timeout - waits indefinitely"), so we model it with explicit
fuel: `mailbox k` is the Redis hash read by the k-th poll iteration, and
`none` means the loop is still running when the fuel runs out.  On return
the source yields `Array.from(responses.values())`, the collected responses
in first-seen order. -/
def waitForRequestResponse (mailbox : Nat → List (Str × RequestResponse))
    (expected : List Str) : Nat → Nat → List (Str × RequestResponse) →
    Option (List RequestResponse)
  | 0, _, _ => none
  | fuel + 1, step, acc =>
    let acc2 := pollMerge acc (mailbox step)
    if allResponded expected acc2 then some (acc2.map (fun e => e.2))
    else waitForRequestResponse mailbox expected fuel (step + 1) acc2

/-- `waitForRequestResponse` returns, for some finite fuel, starting from
the first poll with nothing collected. -/
def waitTerminates (mailbox : Nat → List (Str × RequestResponse))
    (expected : List Str) : Prop :=
  ∃ fuel, (waitForRequestResponse mailbox expected fuel 0 []).isSome

/-- The per-request expected-player computation of
`waitForAllRequestResponses` (requestStore.ts lines 153–161):
multiple-choice expects every player, the targeted variants expect exactly
their `targetPlayers`. -/
def expectedPlayerIds (r : Request) (allPlayerIds : List Str) : List Str :=
  match r with
  | .multipleChoice _ _ _ => allPlayerIds
  | .freeText _ _ t => [t]
  | .yesNo _ _ t => [t]
  | .diceRoll _ _ _ t => [t]

/-- `waitForAllRequestResponses` (requestStore.ts lines 139–187) joins one
`waitForRequestResponse` per request with `Promise.all`, so it settles
exactly when every per-request wait does; `mailbox r` is the hash stream
for the request keyed by id `r`. -/
def waitForAllTerminates (mailbox : Str → Nat → List (Str × RequestResponse))
    (requests : List Request) (allPlayerIds : List Str) : Prop :=
  ∀ r ∈ requests, waitTerminates (mailbox r.rid) (expectedPlayerIds r allPlayerIds)

/-! ## Turn orchestrator (stream.ts lines 179–481)

The handler is modelled as a pure function of the narration chunk sequence
and of the outcomes of the other adapters.  The emitted event list keeps
each stream's own order; the interleaving BETWEEN independent streams
(audio events versus image events) is fixed arbitrarily, which is sound for
the claims below since they only concern which events occur.  Per-chunk
`audio_chunk`, `image_partial` and `ping`/keep-alive events are not
modelled. -/

/-- The named SSE events the handler emits (stream.ts `sendEvent` calls). -/
inductive Ev where
  | turnStatus (status : Str)
  | imagePromptEv (prompt : Str)
  | imageComplete (image : Str)
  | continuationComplete (text : Str)
  | audioComplete
  | audioError (message : Str)
  | requestsReceived (requests : List Request)
  | requestsComplete (responses : List (Str × List RequestResponse))
  | requestError (message : Str)
  | turnComplete (turn : GameTurn)
  | turnError (message : Str)
  | done
deriving DecidableEq

def Ev.isTurnComplete : Ev → Bool
  | .turnComplete _ => true
  | _ => false

def Ev.isTurnError : Ev → Bool
  | .turnError _ => true
  | _ => false

/-- Outcomes of the non-text adapters and collaborators for one turn:
`imageResult` is the settlement of the `streamTurnImage` promise (consulted
only if image generation is started), `audioResult` of `streamTurnAudio`,
`uploadResult` of `uploadTurnImage`, and `collectResult` of the
`createRequestKeys`/`waitForAllRequestResponses` phase (consulted only when
there are requests). -/
structure AdapterOutcomes where
  imageResult : Except Str Str
  audioResult : Except Str Unit
  uploadResult : Except Str Str
  collectResult : Except Str (List (Str × List RequestResponse))
deriving DecidableEq

/-- The mutable state of the narration streaming phase: `rawBuffer`, the
`imagePrompt` variable (`none` = undefined; `some []` = the falsy empty
string), whether `startImageGeneration` has run (`imageTask != null`), and
the events it emitted. -/
structure StreamScan where
  buffer : Str
  imagePromptVar : Option Str
  started : Bool
  startedPrompt : Option Str
  launchEvents : List Ev
deriving DecidableEq

/-- JavaScript truthiness of the `imagePrompt` string variable:
`undefined` and `""` are falsy. -/
def jsFalsyStr : Option Str → Bool
  | none => true
  | some [] => true
  | some (_ :: _) => false

def initScan : StreamScan := ⟨[], none, false, none, []⟩

/-- The `onChunk` callback of stream.ts lines 302–316: append the chunk,
and while the `imagePrompt` variable is falsy re-extract the `image_prompt`
segment; the moment it is closed, strip CDATA and trim, and if the result
is nonempty call `startImageGeneration` (guarded against double start),
which emits `image_prompt` and `turn_status image`. -/
def feedChunk (st : StreamScan) (chunk : Str) : StreamScan :=
  let buf := st.buffer ++ chunk
  if jsFalsyStr st.imagePromptVar then
    match getTagSegment buf "image_prompt".data with
    | some ⟨c, true⟩ =>
      let pr := jsTrim (stripCdata c)
      if pr = [] then { st with buffer := buf, imagePromptVar := some pr }
      else if st.started then { st with buffer := buf, imagePromptVar := some pr }
      else
        { buffer := buf
          imagePromptVar := some pr
          started := true
          startedPrompt := some pr
          launchEvents := st.launchEvents ++ [.imagePromptEv pr, .turnStatus "image".data] }
    | _ => { st with buffer := buf }
  else { st with buffer := buf }

/-- The result of one handler run: the turn-scoped events emitted, the
final persisted game state, and the turn appended to it (if any). -/
structure HandlerResult where
  events : List Ev
  game : GameState
  persisted : Option GameTurn
deriving DecidableEq

/-- The tail of the handler after the image/audio join succeeded
(stream.ts lines 386–459): upload the final image if any (an upload error
is caught and the turn continues without an image), parse and collect
requests (a collection error is caught, reported as `request_error`, and
leaves `responses` undefined), then `appendTurnToGame` and the terminal
`turn_complete`/`done` events. -/
def finishTurn (uuid : Nat → Str) (turnId : Str) (now : Nat) (game : GameState)
    (raw : Str) (oc : AdapterOutcomes) (pt : TurnPayload)
    (evsPre : List Ev) (finalImage : Option Str) : HandlerResult :=
  let imageUrl : Option Str :=
    match finalImage with
    | none => none
    | some _ =>
      match oc.uploadResult with
      | .ok url => some url
      | .error _ => none
  let requests := parseRequests uuid raw game.players
  let reqPhase : List Ev × Option (List (Str × List RequestResponse)) :=
    if requests = [] then ([], none)
    else
      match oc.collectResult with
      | .ok m => ([.requestsReceived requests, .requestsComplete m], some m)
      | .error e => ([.requestsReceived requests, .requestError e], none)
  let payload : AppendTurnPayload :=
    { continuation := pt.continuation
      imagePrompt := pt.imagePrompt
      image := imageUrl
      requests := if requests = [] then none else some requests
      responses := reqPhase.2 }
  let pg := appendTurnToGame turnId now game payload
  ⟨evsPre ++ reqPhase.1 ++ [.turnComplete pg.2, .done], pg.1, some pg.2⟩

/-- The events the audio generation promise produces (stream.ts lines
352–362): `audio_complete` on success, `audio_error` on a caught failure —
the catch does not rethrow, so either way the promise resolves. -/
def audioEvsOf (oc : AdapterOutcomes) : List Ev :=
  match oc.audioResult with
  | .ok _ => [.audioComplete]
  | .error m => [.audioError m]

/-- The events of the late image start (stream.ts lines 364–368). -/
def lateEvsOf (late : Bool) (pt : TurnPayload) : List Ev :=
  if late then
    match pt.imagePrompt with
    | some pr => [.imagePromptEv pr, .turnStatus "image".data]
    | none => []
  else []

/-- The turn handler of stream.ts lines 179–481, from `turn_status
preparing` on.  `uuid` supplies `randomUUID()` for request ids, `turnId`
the id of the appended turn, `now` the clock.  Control flow from the
source:
* the narration stream is replayed chunk by chunk through `feedChunk`;
* `parseTurnPayload` on the full buffer; on throw, the outer catch emits
  `turn_error` and nothing is persisted;
* audio is started on the final continuation; its failure is caught and
  reported as `audio_error` (lines 357–362), not rethrown;
* if the parsed turn has an image prompt and the `imagePrompt` variable is
  still falsy, image generation starts late (lines 364–368);
* the handler then awaits `Promise.all([imageTask, audioGenerationPromise])`.
  A rejected image task has already emitted `turn_error` from its own catch
  (lines 288–292) and rethrown, so the join rejects and the outer catch
  emits `turn_error` again: the turn is aborted, nothing is persisted;
* otherwise `finishTurn`. -/
def runHandler (uuid : Nat → Str) (turnId : Str) (now : Nat) (game : GameState)
    (chunks : List Str) (oc : AdapterOutcomes) : HandlerResult :=
  let st := chunks.foldl feedChunk initScan
  let raw := st.buffer
  let evs0 := [Ev.turnStatus "preparing".data, Ev.turnStatus "narration".data]
    ++ st.launchEvents
  match parseTurnPayload raw with
  | .error e => ⟨evs0 ++ [.turnError e], game, none⟩
  | .ok pt =>
    let late := pt.imagePrompt.isSome && jsFalsyStr st.imagePromptVar && ! st.started
    let launched := st.started || late
    let evs1 := evs0 ++ [Ev.continuationComplete pt.continuation,
      Ev.turnStatus "audio".data] ++ audioEvsOf oc ++ lateEvsOf late pt
    if launched then
      match oc.imageResult with
      | .error e => ⟨evs1 ++ [.turnError e, .turnError e], game, none⟩
      | .ok img =>
        finishTurn uuid turnId now game raw oc pt (evs1 ++ [.imageComplete img]) (some img)
    else
      finishTurn uuid turnId now game raw oc pt evs1 none

/-! ## Helper lemmas about the models -/

theorem toLowerL_append (a b : Str) : toLowerL (a ++ b) = toLowerL a ++ toLowerL b :=
  List.map_append _ _ _

theorem toLowerL_length (s : Str) : (toLowerL s).length = s.length :=
  List.length_map _ _

theorem feedChunk_buffer (st : StreamScan) (c : Str) :
    (feedChunk st c).buffer = st.buffer ++ c := by
  unfold feedChunk
  dsimp only
  split
  · split
    · split
      · rfl
      · split <;> rfl
    · rfl
  · rfl

theorem scan_buffer (chunks : List Str) (st : StreamScan) :
    (chunks.foldl feedChunk st).buffer = st.buffer ++ chunks.flatten := by
  induction chunks generalizing st with
  | nil => simp
  | cons c cs ih =>
    rw [List.foldl_cons, ih, feedChunk_buffer, List.flatten_cons, List.append_assoc]

/-- The events `startImageGeneration` can emit while the text streams. -/
def isLaunchEv : Ev → Bool
  | .imagePromptEv _ => true
  | .turnStatus _ => true
  | _ => false

theorem feedChunk_launch_all {st : StreamScan} (c : Str)
    (h : st.launchEvents.all isLaunchEv = true) :
    (feedChunk st c).launchEvents.all isLaunchEv = true := by
  unfold feedChunk
  dsimp only
  split
  · split
    · split
      · exact h
      · split
        · exact h
        · simp [List.all_append, h, isLaunchEv]
    · exact h
  · exact h

theorem scan_launch_all (chunks : List Str) :
    ((chunks.foldl feedChunk initScan).launchEvents).all isLaunchEv = true := by
  suffices hgen : ∀ st : StreamScan, st.launchEvents.all isLaunchEv = true →
      ((chunks.foldl feedChunk st).launchEvents).all isLaunchEv = true by
    exact hgen initScan rfl
  induction chunks with
  | nil => intro st h; exact h
  | cons c cs ih =>
    intro st h
    rw [List.foldl_cons]
    exact ih _ (feedChunk_launch_all c h)

theorem isLaunchEv_not_turnError {ev : Ev} (h : isLaunchEv ev = true) :
    ev.isTurnError = false := by
  cases ev <;> simp_all [isLaunchEv, Ev.isTurnError]

theorem isLaunchEv_not_turnComplete {ev : Ev} (h : isLaunchEv ev = true) :
    ev.isTurnComplete = false := by
  cases ev <;> simp_all [isLaunchEv, Ev.isTurnComplete]

/-- Invariant of the streaming phase: once the `imagePrompt` variable is
truthy, image generation has been started. -/
def scanInv (st : StreamScan) : Prop :=
  jsFalsyStr st.imagePromptVar = false → st.started = true

theorem feedChunk_inv {st : StreamScan} (c : Str) (h : scanInv st) :
    scanInv (feedChunk st c) := by
  unfold feedChunk
  dsimp only
  split
  · split
    · rename_i seg hseg
      split
      · rename_i hpr
        intro hfal
        simp [jsFalsyStr, hpr] at hfal
      · split
        · rename_i hst
          intro _
          exact hst
        · intro _
          rfl
    · exact h
  · exact h

theorem scan_inv (chunks : List Str) : scanInv (chunks.foldl feedChunk initScan) := by
  suffices hgen : ∀ st : StreamScan, scanInv st → scanInv (chunks.foldl feedChunk st) by
    refine hgen initScan ?_
    intro h
    simp [initScan, jsFalsyStr] at h
  induction chunks with
  | nil => intro st h; exact h
  | cons c cs ih =>
    intro st h
    rw [List.foldl_cons]
    exact ih _ (feedChunk_inv c h)

theorem launched_of_isSome {st : StreamScan} (hinv : scanInv st) {pt : TurnPayload}
    (h : pt.imagePrompt.isSome = true) :
    (st.started || (pt.imagePrompt.isSome && jsFalsyStr st.imagePromptVar && ! st.started))
      = true := by
  cases hst : st.started with
  | true => rfl
  | false =>
    have hfal : jsFalsyStr st.imagePromptVar = true := by
      cases hf : jsFalsyStr st.imagePromptVar with
      | true => rfl
      | false => rw [hinv hf] at hst; cases hst
    simp [h, hfal, hst]

theorem finishTurn_persisted (uuid : Nat → Str) (turnId : Str) (now : Nat)
    (game : GameState) (raw : Str) (oc : AdapterOutcomes) (pt : TurnPayload)
    (evsPre : List Ev) (finalImage : Option Str) :
    ∃ img : Option Str,
      (finishTurn uuid turnId now game raw oc pt evsPre finalImage).persisted =
        some ⟨turnId, now, pt.continuation, pt.imagePrompt, img, none, none⟩ := by
  unfold finishTurn appendTurnToGame
  exact ⟨_, rfl⟩

theorem finishTurn_events (uuid : Nat → Str) (turnId : Str) (now : Nat)
    (game : GameState) (raw : Str) (oc : AdapterOutcomes) (pt : TurnPayload)
    (evsPre : List Ev) (finalImage : Option Str) :
    ∃ reqEvs turn, (∀ ev ∈ reqEvs, ev.isTurnError = false ∧ ev.isTurnComplete = false) ∧
      (finishTurn uuid turnId now game raw oc pt evsPre finalImage).events =
        evsPre ++ reqEvs ++ [.turnComplete turn, .done] := by
  unfold finishTurn
  dsimp only
  split
  · exact ⟨[], _, by simp, rfl⟩
  · split
    · refine ⟨_, _, ?_, rfl⟩
      intro ev hev
      simp only [List.mem_cons, List.not_mem_nil, or_false] at hev
      rcases hev with rfl | rfl <;> simp [Ev.isTurnError, Ev.isTurnComplete]
    · refine ⟨_, _, ?_, rfl⟩
      intro ev hev
      simp only [List.mem_cons, List.not_mem_nil, or_false] at hev
      rcases hev with rfl | rfl <;> simp [Ev.isTurnError, Ev.isTurnComplete]

theorem pollMerge_not_mem {pid : Str} {acc hash : List (Str × RequestResponse)}
    (hacc : ∀ e ∈ acc, e.1 ≠ pid) (hhash : ∀ e ∈ hash, e.1 ≠ pid) :
    ∀ e ∈ pollMerge acc hash, e.1 ≠ pid := by
  induction hash generalizing acc with
  | nil => exact hacc
  | cons kv rest ih =>
    unfold pollMerge
    rw [List.foldl_cons]
    have hkv : kv.1 ≠ pid := hhash kv (by simp)
    have hrest : ∀ e ∈ rest, e.1 ≠ pid := fun e he => hhash e (by simp [he])
    have hstep : ∀ e ∈ (if kv.1 = "__meta__".data then acc
        else if acc.any (fun e => e.1 == kv.1) then acc else acc ++ [kv]), e.1 ≠ pid := by
      split
      · exact hacc
      · split
        · exact hacc
        · intro e he
          rcases List.mem_append.mp he with h | h
          · exact hacc e h
          · rw [List.mem_singleton.mp h]; exact hkv
    exact ih hstep hrest

theorem allResponded_false {pid : Str} {expected : List Str}
    {acc : List (Str × RequestResponse)} (hpid : pid ∈ expected)
    (hacc : ∀ e ∈ acc, e.1 ≠ pid) : allResponded expected acc = false := by
  cases h : allResponded expected acc with
  | false => rfl
  | true =>
    unfold allResponded at h
    rw [List.all_eq_true] at h
    have := h pid hpid
    rw [List.any_eq_true] at this
    rcases this with ⟨e, he, heq⟩
    exact absurd (eq_of_beq heq) (hacc e he)

/-- If some expected player id never occurs in the polled hash, the
`while (true)` loop of `waitForRequestResponse` never returns, whatever the
fuel: there is no timeout path. -/
theorem waitLoop_none {mailbox : Nat → List (Str × RequestResponse)}
    {expected : List Str} (pid : Str) (hpid : pid ∈ expected)
    (hnever : ∀ n, ∀ e ∈ mailbox n, e.1 ≠ pid) :
    ∀ fuel step acc, (∀ e ∈ acc, e.1 ≠ pid) →
      waitForRequestResponse mailbox expected fuel step acc = none := by
  intro fuel
  induction fuel with
  | zero => intro step acc _; rfl
  | succ n ih =>
    intro step acc hacc
    unfold waitForRequestResponse
    dsimp only
    have hacc2 : ∀ e ∈ pollMerge acc (mailbox step), e.1 ≠ pid :=
      pollMerge_not_mem hacc (hnever step)
    rw [allResponded_false hpid hacc2]
    simp only [Bool.false_eq_true, if_false]
    exact ih (step + 1) _ hacc2

/-! ## Claims -/

/-- `s` contains a complete CDATA wrapper: an opener with a closer after it
(the condition under which the global replace of `stripCdata` fires). -/
def hasCdataWrapper (s : Str) : Bool :=
  match findSub s cdataOpen with
  | none => false
  | some p => (findFrom s cdataClose (p + 9)).isSome

theorem stripCdata_eq_self {s : Str} (h : hasCdataWrapper s = false) :
    stripCdata s = s := by
  unfold stripCdata
  cases hl : s.length with
  | zero => rfl
  | succ n =>
    unfold hasCdataWrapper at h
    show stripCdataGo (n + 1) s = s
    unfold stripCdataGo
    cases hfs : findSub s cdataOpen with
    | none => rfl
    | some p =>
      rw [hfs] at h
      dsimp only at h ⊢
      cases hff : findFrom s cdataClose (p + 9) with
      | none => rfl
      | some q => rw [hff] at h; simp at h

/-- C4 (counterexample): `stripCdata` is not idempotent.  On
`<![CDATA[<![CDATA[x]]>]]>` one strip yields `<![CDATA[x]]>` (the lazy
group stops at the first `]]>`), and a second strip yields `x`. -/
theorem c4_counterexample :
    stripCdata (stripCdata "<![CDATA[<![CDATA[x]]>]]>".data) ≠
      stripCdata "<![CDATA[<![CDATA[x]]>]]>".data := by decide

/-- C4 (amended): stripping CDATA from an already-stripped string is a
no-op provided the stripped string contains no remaining complete CDATA
wrapper; in general the law fails because a wrapper nested inside another
is re-exposed by the first strip. -/
theorem c4_theorem (s : Str) (h : hasCdataWrapper (stripCdata s) = false) :
    stripCdata (stripCdata s) = stripCdata s :=
  stripCdata_eq_self h

/-- C4 witness: a single plain wrapper strips to wrapper-free text, on
which a second strip is a no-op. -/
theorem c4_witness :
    hasCdataWrapper (stripCdata "<![CDATA[hello]]>".data) = false ∧
    stripCdata (stripCdata "<![CDATA[hello]]>".data) =
      stripCdata "<![CDATA[hello]]>".data :=
  ⟨by decide, c4_theorem _ (by decide)⟩

/-- C9: on the spec's scenario buffer, `parseTurnPayload` succeeds with the
expected continuation and image prompt. -/
theorem c9_theorem :
    parseTurnPayload ("<turn><continuation>The door creaks open.</continuation><image_prompt>a creaking wooden door</image_prompt></turn>".data) =
      .ok ⟨"The door creaks open.".data, some "a creaking wooden door".data⟩ := by
  rfl

/-- Roster and buffer for the C5 scenario: a well-formed `dice_roll`
request element targeting the only player. -/
def dicePlayers : List Player := [⟨"alice-id".data, "Alice".data, 0, none⟩]

def diceRaw : Str :=
  "<requests><request type=\"dice_roll\" target_player=\"player1\"><question>Roll for initiative!</question></request></requests>".data

/-- C5: the claim fails on the code.  The element is well formed — the
`<requests>` block is found, the element scan yields it, its `type`
attribute reads `dice_roll`, its question is nonempty, and `player1`
resolves in bounds — yet `parseRequests` returns no request at all: the
parser has branches only for `multiple_choice`, `free_text` and `yes_no`
(stream.ts lines 109–154), so `dice_roll` falls through every branch and is
dropped like an unknown type. -/
theorem c5_theorem :
    parseRequests (fun n => (toString n).data) diceRaw dicePlayers = [] ∧
    (requestsBlock diceRaw).isSome = true ∧
    (scanAttr 60 "type=".data
      "type=\"dice_roll\" target_player=\"player1\"".data) = some "dice_roll".data ∧
    mapPlayerReference "player1".data dicePlayers = some "alice-id".data ∧
    processRequestElement dicePlayers "0".data
      "type=\"dice_roll\" target_player=\"player1\"".data
      "<question>Roll for initiative!</question>".data = none := by
  refine ⟨by rfl, by rfl, by rfl, by rfl, by rfl⟩

/-- C10: a `<request type="multiple_choice">` element all of whose
`<choice>` children strip and trim to the empty string is dropped by the
per-element parser (the `choices.length > 0` guard of stream.ts line 119),
so it never reaches the returned request list. -/
theorem c10_theorem (players : List Player) (rid : Str) (attrs content tyRaw : Str)
    (hty : scanAttr (attrs.length + 1) "type=".data attrs = some tyRaw)
    (hlow : toLowerL tyRaw = "multiple_choice".data)
    (hch : (scanChoices (content.length + 1) content).all
      (fun ch => jsTrim (stripCdata ch) == []) = true) :
    processRequestElement players rid attrs content = none := by
  unfold processRequestElement
  rw [hty]
  dsimp only
  cases hq : questionOf content with
  | none => rfl
  | some qRaw =>
    dsimp only
    have hnil : (scanChoices (content.length + 1) content).filterMap
        (fun c => if jsTrim (stripCdata c) = [] then none
          else some (jsTrim (stripCdata c))) = [] := by
      rw [List.filterMap_eq_nil_iff]
      intro ch hmem
      have := (List.all_eq_true.mp hch) ch hmem
      rw [if_pos (eq_of_beq this)]
    rw [hlow]
    simp only [hnil]
    rfl

/-- Content and attributes instantiating C10: two choices, one whitespace
and one CDATA-wrapped whitespace. -/
def c10Attrs : Str := "type=\"multiple_choice\"".data

def c10Content : Str :=
  "<question>Pick!</question><choice> </choice><choice><![CDATA[  ]]></choice>".data

/-- C10 witness. -/
theorem c10_witness :
    scanAttr (c10Attrs.length + 1) "type=".data c10Attrs = some "multiple_choice".data ∧
    toLowerL "multiple_choice".data = "multiple_choice".data ∧
    (scanChoices (c10Content.length + 1) c10Content).all
      (fun ch => jsTrim (stripCdata ch) == []) = true ∧
    processRequestElement [] "r1".data c10Attrs c10Content = none :=
  ⟨by rfl, by rfl, by rfl,
    c10_theorem [] "r1".data c10Attrs c10Content "multiple_choice".data
      (by rfl) (by rfl) (by rfl)⟩

/-- C2 (counterexample): the claim of a bounded timeout is false.  With one
`yes_no` request targeting player `p1` and a mailbox in which `p1` never
appears, `waitForAllRequestResponses` never returns for any amount of fuel:
the poll loop of `waitForRequestResponse` has no timeout. -/
theorem c2_counterexample :
    ¬ waitForAllTerminates (fun _ _ => [])
      [Request.yesNo "r1".data "Open the door?".data "p1".data] ["p1".data] := by
  intro hall
  rcases hall _ (List.mem_singleton.mpr rfl) with ⟨fuel, hsome⟩
  dsimp only [Request.rid, expectedPlayerIds] at hsome
  rw [waitLoop_none "p1".data (List.mem_singleton.mpr rfl)
    (fun n e he => absurd he (List.not_mem_nil e)) fuel 0 []
    (fun e he => absurd he (List.not_mem_nil e))] at hsome
  cases hsome

/-- C2 (amended): the response-collection phase has no timeout.
`waitForRequestResponse` polls the mailbox indefinitely and returns only
once every expected player has answered; if some targeted player never
submits a response, `waitForAllRequestResponses` never settles, for any
finite amount of polling. -/
theorem c2_theorem (mailbox : Str → Nat → List (Str × RequestResponse))
    (requests : List Request) (allPlayerIds : List Str) (r : Request) (pid : Str)
    (hr : r ∈ requests) (hpid : pid ∈ expectedPlayerIds r allPlayerIds)
    (hnever : ∀ n, ∀ e ∈ mailbox r.rid n, e.1 ≠ pid) :
    ¬ waitForAllTerminates mailbox requests allPlayerIds := by
  intro hall
  rcases hall r hr with ⟨fuel, hsome⟩
  rw [waitLoop_none pid hpid hnever fuel 0 []
    (fun e he => absurd he (List.not_mem_nil e))] at hsome
  cases hsome

/-- A multiple-choice request and a mailbox stream instantiating C2's
theorem: every player is expected, `ann` answers, `bob` never does. -/
def c2Req : Request := .multipleChoice "r2".data "Vote!".data ["A".data]

def c2Mailbox : Str → Nat → List (Str × RequestResponse) :=
  fun _ _ => [("ann".data, ⟨"ann".data, some "A".data, 1⟩)]

/-- C2 witness. -/
theorem c2_witness :
    c2Req ∈ [c2Req] ∧
    "bob".data ∈ expectedPlayerIds c2Req ["ann".data, "bob".data] ∧
    ¬ waitForAllTerminates c2Mailbox [c2Req] ["ann".data, "bob".data] :=
  ⟨List.mem_singleton.mpr rfl, by right; exact List.mem_singleton.mpr rfl,
    c2_theorem c2Mailbox [c2Req] ["ann".data, "bob".data] c2Req "bob".data
      (List.mem_singleton.mpr rfl) (by right; exact List.mem_singleton.mpr rfl)
      (by
        intro n e he
        rw [List.mem_singleton.mp he]
        decide)⟩

/-- C8: once `getTagSegment` reports `closed = true` on buffer `B`, any
buffer extending `B` (here `B ++ ext`, `ext ≠ []`, i.e. any buffer of which
`B` is a proper prefix) yields `closed = true` with identical content: the
three leftmost-occurrence searches all land inside `B` and are stable under
appending, as is the content slice. -/
theorem c8_theorem (B ext tag c : Str) (_hext : ext ≠ [])
    (h : getTagSegment B tag = some ⟨c, true⟩) :
    getTagSegment (B ++ ext) tag = some ⟨c, true⟩ := by
  unfold getTagSegment at h ⊢
  dsimp only at h ⊢
  cases h1 : findSub (toLowerL B) ('<' :: toLowerL tag) with
  | none => rw [h1] at h; cases h
  | some p =>
    rw [h1] at h
    dsimp only at h
    cases h2 : findFrom B ['>'] p with
    | none => rw [h2] at h; cases h
    | some g =>
      rw [h2] at h
      dsimp only at h
      cases h3 : findFrom (toLowerL B) ('<' :: '/' :: (toLowerL tag ++ ['>'])) (g + 1) with
      | none =>
        rw [h3] at h
        exact absurd (congrArg (fun t => (Option.map TagSegment.closed t)) h) (by simp)
      | some q =>
        rw [h3] at h
        dsimp only at h
        have hcontent : sliceL B (g + 1) q = c := by
          have := congrArg (fun t => Option.map TagSegment.content t) h
          simpa using this
        have hp : p ≤ B.length := by
          have := findSub_bound h1
          rw [toLowerL_length] at this
          simp only [List.length_cons] at this
          omega
        have hg : g + 1 ≤ B.length := (findFrom_bound (by simp) h2).2
        have hq : q ≤ B.length := by
          have := (findFrom_bound (by simp) h3).2
          rw [toLowerL_length] at this
          simp only [List.length_cons, List.length_append] at this
          omega
        have hg1 : g + 1 ≤ (toLowerL B).length := by rw [toLowerL_length]; exact hg
        rw [toLowerL_append, findSub_append h1]
        dsimp only
        rw [findFrom_append hp h2]
        dsimp only
        rw [findFrom_append hg1 h3]
        dsimp only
        rw [sliceL_append hg hq, hcontent]

/-- C8 witness: `<x>hi</x>` closes tag `x` with content `hi`, and stays
identical after appending more streamed text. -/
theorem c8_witness :
    ("<y>more".data ≠ ([] : Str)) ∧
    getTagSegment "<x>hi</x>".data "x".data = some ⟨"hi".data, true⟩ ∧
    getTagSegment ("<x>hi</x>".data ++ "<y>more".data) "x".data =
      some ⟨"hi".data, true⟩ :=
  ⟨by decide, by rfl,
    c8_theorem "<x>hi</x>".data "<y>more".data "x".data "hi".data (by decide) (by rfl)⟩

theorem all_not_turnError_of_launch {l : List Ev} (h : l.all isLaunchEv = true) :
    l.all (fun ev => ! ev.isTurnError) = true := by
  rw [List.all_eq_true] at h ⊢
  intro ev hev
  simp [isLaunchEv_not_turnError (h ev hev)]

theorem all_not_turnComplete_of_launch {l : List Ev} (h : l.all isLaunchEv = true) :
    l.all (fun ev => ! ev.isTurnComplete) = true := by
  rw [List.all_eq_true] at h ⊢
  intro ev hev
  simp [isLaunchEv_not_turnComplete (h ev hev)]

theorem audioEvsOf_not_turnError (oc : AdapterOutcomes) :
    (audioEvsOf oc).all (fun ev => ! ev.isTurnError) = true := by
  unfold audioEvsOf
  cases oc.audioResult <;> simp [Ev.isTurnError]

theorem audioEvsOf_not_turnComplete (oc : AdapterOutcomes) :
    (audioEvsOf oc).all (fun ev => ! ev.isTurnComplete) = true := by
  unfold audioEvsOf
  cases oc.audioResult <;> simp [Ev.isTurnComplete]

theorem lateEvsOf_not_turnError (late : Bool) (pt : TurnPayload) :
    (lateEvsOf late pt).all (fun ev => ! ev.isTurnError) = true := by
  unfold lateEvsOf
  split
  · cases pt.imagePrompt <;> simp [Ev.isTurnError]
  · simp

theorem lateEvsOf_not_turnComplete (late : Bool) (pt : TurnPayload) :
    (lateEvsOf late pt).all (fun ev => ! ev.isTurnComplete) = true := by
  unfold lateEvsOf
  split
  · cases pt.imagePrompt <;> simp [Ev.isTurnComplete]
  · simp

theorem finishTurn_props (uuid : Nat → Str) (turnId : Str) (now : Nat)
    (game : GameState) (raw : Str) (oc : AdapterOutcomes) (pt : TurnPayload)
    (evsPre : List Ev) (finalImage : Option Str)
    (hpre : evsPre.all (fun ev => ! ev.isTurnError) = true) :
    (finishTurn uuid turnId now game raw oc pt evsPre finalImage).persisted.isSome = true ∧
    (finishTurn uuid turnId now game raw oc pt evsPre finalImage).events.any
      Ev.isTurnComplete = true ∧
    (finishTurn uuid turnId now game raw oc pt evsPre finalImage).events.all
      (fun ev => ! ev.isTurnError) = true ∧
    ∀ ev ∈ evsPre, ev ∈ (finishTurn uuid turnId now game raw oc pt evsPre finalImage).events := by
  obtain ⟨reqEvs, turn, hre, hevents⟩ :=
    finishTurn_events uuid turnId now game raw oc pt evsPre finalImage
  obtain ⟨img, hpers⟩ := finishTurn_persisted uuid turnId now game raw oc pt evsPre finalImage
  refine ⟨by rw [hpers]; rfl, ?_, ?_, ?_⟩
  · rw [hevents]
    simp [List.any_append, Ev.isTurnComplete]
  · rw [hevents]
    simp only [List.all_append, hpre, Bool.true_and, Bool.and_eq_true]
    constructor
    · rw [List.all_eq_true]
      intro ev hev
      simp [(hre ev hev).1]
    · simp [Ev.isTurnError]
  · intro ev hev
    rw [hevents]
    simp [hev]

/-- After a successful parse, with the image adapter succeeding, the
handler reduces to `finishTurn` with a pre-event list that never contains a
`turn_error` and that reports an audio failure as `audio_error`. -/
theorem runHandler_ok_fin (uuid : Nat → Str) (turnId : Str) (now : Nat)
    (game : GameState) (chunks : List Str) (oc : AdapterOutcomes)
    (pt : TurnPayload) (img : Str)
    (hparse : parseTurnPayload chunks.flatten = .ok pt)
    (himg : oc.imageResult = .ok img) :
    ∃ evsPre finalImage,
      runHandler uuid turnId now game chunks oc =
        finishTurn uuid turnId now game chunks.flatten oc pt evsPre finalImage ∧
      evsPre.all (fun ev => ! ev.isTurnError) = true ∧
      (∀ m, oc.audioResult = .error m → Ev.audioError m ∈ evsPre) := by
  have hb : (chunks.foldl feedChunk initScan).buffer = chunks.flatten := by
    simpa using scan_buffer chunks initScan
  have hlaunch := scan_launch_all chunks
  unfold runHandler
  dsimp only
  rw [hb, hparse]
  dsimp only
  rw [himg]
  dsimp only
  split
  · refine ⟨_, _, rfl, ?_, ?_⟩
    · simp only [List.all_append, Bool.and_eq_true]
      exact ⟨⟨⟨⟨⟨by rfl, all_not_turnError_of_launch hlaunch⟩, by rfl⟩,
        audioEvsOf_not_turnError oc⟩, lateEvsOf_not_turnError _ pt⟩, by rfl⟩
    · intro m hm
      simp [List.mem_append, audioEvsOf, hm]
  · refine ⟨_, _, rfl, ?_, ?_⟩
    · simp only [List.all_append, Bool.and_eq_true]
      exact ⟨⟨⟨⟨by rfl, all_not_turnError_of_launch hlaunch⟩, by rfl⟩,
        audioEvsOf_not_turnError oc⟩, lateEvsOf_not_turnError _ pt⟩
    · intro m hm
      simp [List.mem_append, audioEvsOf, hm]

theorem any_eq_false_of_all_not {l : List Ev} {p : Ev → Bool}
    (h : l.all (fun x => ! p x) = true) : l.any p = false := by
  rw [List.all_eq_true] at h
  cases ha : l.any p with
  | false => rfl
  | true =>
    rcases List.any_eq_true.mp ha with ⟨x, hx, hp⟩
    have hb := h x hx
    rw [hp] at hb
    cases hb

theorem parseTurnPayload_error (raw : Str)
    (h : turnBlock raw = none ∨ ∃ b, turnBlock raw = some b ∧
        (parseTag b "continuation".data = none ∨ parseTag b "continuation".data = some [])) :
    ∃ e, parseTurnPayload raw = .error e := by
  unfold parseTurnPayload
  rcases h with h | ⟨b, hb, hc⟩
  · rw [h]
    exact ⟨_, rfl⟩
  · rw [hb]
    dsimp only
    rcases hc with hc | hc
    · rw [hc]
      exact ⟨_, rfl⟩
    · rw [hc]
      dsimp only
      rw [if_pos rfl]
      exact ⟨_, rfl⟩

/-- Concrete fixtures used by the orchestrator claims. -/
def sampleUuid : Nat → Str := fun n => (toString n).data

def samplePlayer : Player := ⟨"alice-id".data, "Alice".data, 0, none⟩

def sampleGame : GameState := ⟨"G1".data, 0, "in-progress".data, [samplePlayer], []⟩

def allOkOutcomes : AdapterOutcomes :=
  ⟨.ok "img64".data, .ok (), .ok "http-img-url".data, .ok []⟩

/-- C7: when the completed raw buffer has no `<turn>...</turn>` envelope, or
its continuation is missing or empty, `parseTurnPayload` throws before any
persist call: the handler's outer catch emits `turn_error`, no turn is
appended, and the game state is unchanged. -/
theorem c7_theorem (uuid : Nat → Str) (turnId : Str) (now : Nat) (game : GameState)
    (chunks : List Str) (oc : AdapterOutcomes)
    (h : turnBlock chunks.flatten = none ∨
      ∃ b, turnBlock chunks.flatten = some b ∧
        (parseTag b "continuation".data = none ∨
         parseTag b "continuation".data = some [])) :
    (runHandler uuid turnId now game chunks oc).events.any Ev.isTurnError = true ∧
    (runHandler uuid turnId now game chunks oc).persisted = none ∧
    (runHandler uuid turnId now game chunks oc).game = game := by
  obtain ⟨e, hparse⟩ := parseTurnPayload_error chunks.flatten h
  have hb : (chunks.foldl feedChunk initScan).buffer = chunks.flatten := by
    simpa using scan_buffer chunks initScan
  unfold runHandler
  dsimp only
  rw [hb, hparse]
  dsimp only
  refine ⟨?_, rfl, rfl⟩
  simp [List.any_append, Ev.isTurnError]

/-- C7 witness: a buffer with no turn envelope at all. -/
theorem c7_witness :
    turnBlock (["there is no turn element here".data] : List Str).flatten = none ∧
    ((runHandler sampleUuid "T7".data 0 sampleGame
        ["there is no turn element here".data] allOkOutcomes).events.any
      Ev.isTurnError = true ∧
     (runHandler sampleUuid "T7".data 0 sampleGame
        ["there is no turn element here".data] allOkOutcomes).persisted = none ∧
     (runHandler sampleUuid "T7".data 0 sampleGame
        ["there is no turn element here".data] allOkOutcomes).game = sampleGame) :=
  ⟨by rfl,
    c7_theorem sampleUuid "T7".data 0 sampleGame
      ["there is no turn element here".data] allOkOutcomes (Or.inl (by rfl))⟩

/-- C6: when speech synthesis fails (the audio promise rejects with `m`),
the failure is reported via `audio_error m` and not as a turn failure: the
handler still persists the turn, still emits `turn_complete`, and emits no
`turn_error` — the audio catch (stream.ts lines 357–362) swallows the
rejection instead of rethrowing it. -/
theorem c6_theorem (uuid : Nat → Str) (turnId : Str) (now : Nat) (game : GameState)
    (chunks : List Str) (oc : AdapterOutcomes) (pt : TurnPayload) (m img : Str)
    (hparse : parseTurnPayload chunks.flatten = .ok pt)
    (haudio : oc.audioResult = .error m)
    (himg : oc.imageResult = .ok img) :
    Ev.audioError m ∈ (runHandler uuid turnId now game chunks oc).events ∧
    (runHandler uuid turnId now game chunks oc).persisted.isSome = true ∧
    (runHandler uuid turnId now game chunks oc).events.any Ev.isTurnComplete = true ∧
    (runHandler uuid turnId now game chunks oc).events.all
      (fun ev => ! ev.isTurnError) = true := by
  obtain ⟨evsPre, fi, heq, hall, hmem⟩ :=
    runHandler_ok_fin uuid turnId now game chunks oc pt img hparse himg
  obtain ⟨h1, h2, h3, h4⟩ :=
    finishTurn_props uuid turnId now game chunks.flatten oc pt evsPre fi hall
  rw [heq]
  exact ⟨h4 _ (hmem m haudio), h1, h2, h3⟩

def c6Raw : Str := "<turn><continuation>Night falls.</continuation></turn>".data

def c6Oc : AdapterOutcomes :=
  ⟨.ok "img64".data, .error "tts down".data, .ok "url".data, .ok []⟩

/-- C6 witness. -/
theorem c6_witness :
    parseTurnPayload ([c6Raw] : List Str).flatten =
      .ok ⟨"Night falls.".data, none⟩ ∧
    c6Oc.audioResult = .error "tts down".data ∧
    c6Oc.imageResult = .ok "img64".data ∧
    (Ev.audioError "tts down".data ∈
        (runHandler sampleUuid "T6".data 0 sampleGame [c6Raw] c6Oc).events ∧
     (runHandler sampleUuid "T6".data 0 sampleGame [c6Raw] c6Oc).persisted.isSome = true ∧
     (runHandler sampleUuid "T6".data 0 sampleGame [c6Raw] c6Oc).events.any
       Ev.isTurnComplete = true ∧
     (runHandler sampleUuid "T6".data 0 sampleGame [c6Raw] c6Oc).events.all
       (fun ev => ! ev.isTurnError) = true) :=
  ⟨by rfl, rfl, rfl,
    c6_theorem sampleUuid "T6".data 0 sampleGame [c6Raw] c6Oc
      ⟨"Night falls.".data, none⟩ "tts down".data "img64".data (by rfl) rfl rfl⟩

def c3Raw : Str :=
  "<turn><continuation>A goblin appears.</continuation><image_prompt>a goblin</image_prompt></turn>".data

def c3Oc : AdapterOutcomes :=
  ⟨.error "image generation failed".data, .ok (), .ok "url".data, .ok []⟩

/-- C3 (counterexample): with fully streamed, well-parsed narration and a
failing image adapter, the handler does NOT persist the turn and does NOT
emit `turn_complete` — contradicting the claim that an image failure after
usable narration leaves the turn to complete without the image. -/
theorem c3_counterexample :
    (runHandler sampleUuid "T3".data 0 sampleGame [c3Raw] c3Oc).persisted = none ∧
    (runHandler sampleUuid "T3".data 0 sampleGame [c3Raw] c3Oc).events.any
      Ev.isTurnComplete = false :=
  ⟨by rfl, by rfl⟩

/-- C3 (amended): when image generation is running (an image prompt was
parsed) and its promise rejects with `e`, the image catch emits `turn_error
e` and rethrows (stream.ts lines 288–292); `Promise.all` then rejects and
the outer catch emits `turn_error` again: the turn is aborted — nothing is
persisted, the game is unchanged, and no `turn_complete` is emitted.  Image
failure, unlike speech failure, is fatal to the whole turn. -/
theorem c3_theorem (uuid : Nat → Str) (turnId : Str) (now : Nat) (game : GameState)
    (chunks : List Str) (oc : AdapterOutcomes) (pt : TurnPayload) (e : Str)
    (hparse : parseTurnPayload chunks.flatten = .ok pt)
    (hprompt : pt.imagePrompt.isSome = true)
    (himg : oc.imageResult = .error e) :
    Ev.turnError e ∈ (runHandler uuid turnId now game chunks oc).events ∧
    (runHandler uuid turnId now game chunks oc).persisted = none ∧
    (runHandler uuid turnId now game chunks oc).game = game ∧
    (runHandler uuid turnId now game chunks oc).events.any Ev.isTurnComplete = false := by
  have hb : (chunks.foldl feedChunk initScan).buffer = chunks.flatten := by
    simpa using scan_buffer chunks initScan
  have hlaunchAll := scan_launch_all chunks
  have hlaunch := launched_of_isSome (scan_inv chunks) hprompt
  unfold runHandler
  dsimp only
  rw [hb, hparse]
  dsimp only
  split
  · rw [himg]
    dsimp only
    refine ⟨by simp [List.mem_append], rfl, rfl, ?_⟩
    refine any_eq_false_of_all_not ?_
    simp only [List.all_append, Bool.and_eq_true]
    exact ⟨⟨⟨⟨⟨by rfl, all_not_turnComplete_of_launch hlaunchAll⟩, by rfl⟩,
      audioEvsOf_not_turnComplete oc⟩, lateEvsOf_not_turnComplete _ pt⟩, by rfl⟩
  · rename_i hfalse
    exact absurd hlaunch hfalse

/-- C3 witness for the amended theorem. -/
theorem c3_witness :
    parseTurnPayload ([c3Raw] : List Str).flatten =
      .ok ⟨"A goblin appears.".data, some "a goblin".data⟩ ∧
    (some "a goblin".data).isSome = true ∧
    c3Oc.imageResult = .error "image generation failed".data ∧
    (Ev.turnError "image generation failed".data ∈
        (runHandler sampleUuid "T3w".data 1 sampleGame [c3Raw] c3Oc).events ∧
     (runHandler sampleUuid "T3w".data 1 sampleGame [c3Raw] c3Oc).persisted = none ∧
     (runHandler sampleUuid "T3w".data 1 sampleGame [c3Raw] c3Oc).game = sampleGame ∧
     (runHandler sampleUuid "T3w".data 1 sampleGame [c3Raw] c3Oc).events.any
       Ev.isTurnComplete = false) :=
  ⟨by rfl, rfl, rfl,
    c3_theorem sampleUuid "T3w".data 1 sampleGame [c3Raw] c3Oc
      ⟨"A goblin appears.".data, some "a goblin".data⟩
      "image generation failed".data (by rfl) rfl rfl⟩

def c1Raw : Str :=
  "<turn><continuation>A goblin appears.</continuation></turn><requests><request type=\"yes_no\" target_player=\"player1\"><question>Fight?</question></request></requests>".data

def c1Resp : RequestResponse := ⟨"alice-id".data, some "yes".data, 42⟩

def c1Oc : AdapterOutcomes :=
  ⟨.ok "img64".data, .ok (), .ok "url".data, .ok [("0".data, [c1Resp])]⟩

/-- C1: the claim fails on the code, against the code's own declarations.
On a turn whose narration contains one structured request, with the
collection phase succeeding and returning a response map, the handler
passes `requests` and `responses` to `appendTurnToGame` (stream.ts lines
449–455) — but the persisted `GameTurn` has `requests = none` and
`responses = none`, because `appendTurnToGame` (gameStore.ts lines
101, 108–114) declares a payload type without those fields and constructs
the turn from `continuation`, `imagePrompt` and `image` only, even though
the `GameTurn` type declares `requests?` and `responses?`. -/
theorem c1_theorem :
    parseRequests sampleUuid c1Raw sampleGame.players =
      [Request.yesNo "0".data "Fight?".data "alice-id".data] ∧
    c1Oc.collectResult = .ok [("0".data, [c1Resp])] ∧
    Ev.requestsComplete [("0".data, [c1Resp])] ∈
      (runHandler sampleUuid "T1".data 5 sampleGame [c1Raw] c1Oc).events ∧
    (runHandler sampleUuid "T1".data 5 sampleGame [c1Raw] c1Oc).persisted =
      some ⟨"T1".data, 5, "A goblin appears.".data, none, none, none, none⟩ := by
  refine ⟨by rfl, rfl, by decide, by rfl⟩

end Spellbound
